import Mathlib

/-!
Verification of the mkweather application (src/main.py): a shallow embedding
of its form validation, forecast shaping and tip generation logic, followed
by theorems about the embedded definitions.

Modelling conventions:
* Python numbers (temperatures, coordinates) are modelled as exact rationals
  (`ℚ`); `round(x, 1)` is modelled as round-half-to-even at one decimal.
* The two network collaborators are modelled by their observable outcomes
  (`GeoOutcome`, `FetchOutcome`): the code only branches on whether the call
  raised, what status it had, and the parsed JSON body.
* Exceptions that the Python code does not catch are modelled explicitly
  (`Except.error` / the `exn` constructors): they propagate to the caller
  rather than producing a return value.
* `WeatherQuizForm.validate` is modelled from the point where
  `super().validate()` has succeeded (the framework field checks passed),
  which is the precondition of every claim about it.
-/

/-- A calendar date, as produced by `datetime.date` in Python. -/
structure PyDate where
  year : Nat
  month : Nat
  day : Nat
deriving DecidableEq, Repr

/-- Strict lexicographic order on dates: `a.lt b` means `a` is before `b`. -/
def PyDate.lt (a b : PyDate) : Bool :=
  decide (a.year < b.year) ||
    (decide (a.year = b.year) &&
      (decide (a.month < b.month) ||
        (decide (a.month = b.month) && decide (a.day < b.day))))

/-- Numeric value of a decimal digit character. -/
def digitVal (c : Char) : Nat := c.toNat - '0'.toNat

/-- Gregorian leap-year test, as `datetime` uses. -/
def isLeap (y : Nat) : Bool := (y % 4 == 0 && y % 100 != 0) || (y % 400 == 0)

/-- Number of days in a month, as `datetime` validates. -/
def daysInMonth (y m : Nat) : Nat :=
  if m == 2 then (if isLeap y then 29 else 28)
  else if m == 4 || m == 6 || m == 9 || m == 11 then 30
  else 31

/-- `datetime.strptime(s, "%Y-%m-%d %H:%M:%S").date()`: parse a timestamp of
the exact shape `YYYY-MM-DD HH:MM:SS` and keep its calendar date; `none`
models the `ValueError` raised on any other shape. -/
def parseDtTxt (s : String) : Option PyDate :=
  match s.toList with
  | [y1, y2, y3, y4, c1, m1, m2, c2, d1, d2, c3, h1, h2, c4, n1, n2, c5, s1, s2] =>
    if y1.isDigit && y2.isDigit && y3.isDigit && y4.isDigit
        && (c1 == '-') && m1.isDigit && m2.isDigit && (c2 == '-')
        && d1.isDigit && d2.isDigit && (c3 == ' ')
        && h1.isDigit && h2.isDigit && (c4 == ':')
        && n1.isDigit && n2.isDigit && (c5 == ':')
        && s1.isDigit && s2.isDigit then
      let y := 1000 * digitVal y1 + 100 * digitVal y2 + 10 * digitVal y3 + digitVal y4
      let mo := 10 * digitVal m1 + digitVal m2
      let dy := 10 * digitVal d1 + digitVal d2
      let hh := 10 * digitVal h1 + digitVal h2
      let mi := 10 * digitVal n1 + digitVal n2
      let ss := 10 * digitVal s1 + digitVal s2
      if 1 ≤ mo ∧ mo ≤ 12 ∧ 1 ≤ dy ∧ dy ≤ daysInMonth y mo
          ∧ hh ≤ 23 ∧ mi ≤ 59 ∧ ss ≤ 59 then
        some ⟨y, mo, dy⟩
      else none
    else none
  | _ => none

/-- Round a rational to the nearest integer, halves to even: the behaviour of
Python's built-in `round` on exact values. -/
def roundHalfEven (q : ℚ) : ℤ :=
  if q - Int.floor q < 1 / 2 then Int.floor q
  else if 1 / 2 < q - Int.floor q then Int.floor q + 1
  else if Int.floor q % 2 = 0 then Int.floor q else Int.floor q + 1

/-- Python's `round(q, 1)` over exact rationals. -/
def pyRound1 (q : ℚ) : ℚ := (roundHalfEven (q * 10) : ℚ) / 10

/-- Python's `str.strip()`: drop leading and trailing whitespace. Written
over the character list so that it evaluates by kernel reduction. -/
def pyStrip (s : String) : String :=
  ⟨((s.toList.dropWhile Char.isWhitespace).reverse.dropWhile Char.isWhitespace).reverse⟩

/-- Python's `str.lower()`, written over the character list. -/
def pyLower (s : String) : String := ⟨s.toList.map Char.toLower⟩

/-- `strStarts n h`: the character list `h` starts with `n`. -/
def strStarts : List Char → List Char → Bool
  | [], _ => true
  | _ :: _, [] => false
  | a :: n, b :: h => a == b && strStarts n h

/-- `occursIn n h`: the character list `n` occurs contiguously in `h`;
the semantics of Python's `n in h` on strings. -/
def occursIn (n : List Char) : List Char → Bool
  | [] => strStarts n []
  | c :: t => strStarts n (c :: t) || occursIn n t

/-- Python's `pat in hay` on strings. -/
def strContains (hay pat : String) : Bool := occursIn pat.toList hay.toList

/-- `user_cold is not None and temp_f <= user_cold` in `get_activity_tips`. -/
def coldTriggered (temp_f : ℚ) (user_cold : Option ℚ) : Bool :=
  match user_cold with
  | some c => decide (temp_f ≤ c)
  | none => false

/-- `user_hot is not None and temp_f >= user_hot` in `get_activity_tips`. -/
def hotTriggered (temp_f : ℚ) (user_hot : Option ℚ) : Bool :=
  match user_hot with
  | some h => decide (temp_f ≥ h)
  | none => false

/-- `get_activity_tips` from src/main.py, translated clause for clause: the
temperature bucket (cold checked first, then hot, then neutral), then one
conditional append per weather keyword, scanning the lowercased description. -/
def get_activity_tips (temp_f : ℚ) (description : String)
    (user_hot : Option ℚ) (user_cold : Option ℚ) : List String :=
  let desc := pyLower description
  let tips : List String :=
    if coldTriggered temp_f user_cold then
      ["Bundle up/Wear warm clothes", "Limit time outdoors"]
    else if hotTriggered temp_f user_hot then
      ["Stay hydrated", "Avoid peak sun hours"]
    else
      ["Comfortable for outdoor activities"]
  let tips := if strContains desc "rain" then tips ++ ["Bring an umbrella"] else tips
  let tips := if strContains desc "snow" then tips ++ ["Drive carefully"] else tips
  let tips := if strContains desc "wind" then tips ++ ["Windy — secure loose items"] else tips
  let tips :=
    if strContains desc "storm" || strContains desc "thunder" then
      tips ++ ["Stay indoors if possible"]
    else tips
  tips

/-- The temperature bucket of the spec's tip rules, stated in the spec's own
terms: exactly one bucket, cold taking precedence over hot. -/
def bucketTips (temp_f : ℚ) (user_hot user_cold : Option ℚ) : List String :=
  if coldTriggered temp_f user_cold then
    ["Bundle up/Wear warm clothes", "Limit time outdoors"]
  else if hotTriggered temp_f user_hot then
    ["Stay hydrated", "Avoid peak sun hours"]
  else
    ["Comfortable for outdoor activities"]

/-- The condition tips of the spec's tip rules: one tip per keyword found in
the lowercased description, in the fixed order rain, snow, wind, storm/thunder. -/
def conditionTips (description : String) : List String :=
  let desc := pyLower description
  (if strContains desc "rain" then ["Bring an umbrella"] else [])
    ++ (if strContains desc "snow" then ["Drive carefully"] else [])
    ++ (if strContains desc "wind" then ["Windy — secure loose items"] else [])
    ++ (if strContains desc "storm" || strContains desc "thunder" then
          ["Stay indoors if possible"]
        else [])

/-- One `"weather"` array element of a forecast interval entry: a short
description (absence models the `KeyError` on `weather["description"]`) and
an optional icon id (`weather.get("icon")`). -/
structure RawWeather where
  description : Option String
  icon : Option String
deriving DecidableEq, Repr

/-- One interval entry of the forecast payload. `none` in `dt_txt` or
`main_temp` models the `KeyError` raised by `entry["dt_txt"]` or
`entry["main"]["temp"]`; an empty `weather` list models the error raised
by `entry["weather"][0]`. -/
structure RawEntry where
  dt_txt : Option String
  main_temp : Option ℚ
  weather : List RawWeather
deriving DecidableEq, Repr

/-- The parsed JSON body of a successful forecast response: `lst` is the
`"list"` key (`data.get("list", [])` yields `[]` when it is absent). -/
structure RawData where
  lst : Option (List RawEntry)
deriving DecidableEq, Repr

/-- Outcome of `requests.get` + `raise_for_status` + `.json()` for the
forecast collaborator, the exact cases the `try` block distinguishes. -/
inductive FetchOutcome
  | transportError
  | httpError
  | badJson
  | ok (data : RawData)
deriving DecidableEq, Repr

/-- One rendered forecast day, the dictionary built inside `get_forecast`. -/
structure ForecastDay where
  date : PyDate
  temp_f : ℚ
  description : String
  icon : Option String
  tips : List String
deriving DecidableEq, Repr

/-- What `get_forecast` gives its caller: the Python `None` sentinel, an
uncaught exception propagating out of the entry loop, or a value list. -/
inductive ForecastResult
  | unavailable
  | exn
  | ok (days : List ForecastDay)
deriving DecidableEq, Repr

/-- The forecast day built from one kept interval entry: Kelvin to Fahrenheit
conversion `(K - 273.15) * 9 / 5 + 32` rounded to one decimal, the first
weather element's description and icon, and the attached activity tips. -/
def buildDayFD (uh uc : Option ℚ) (d : PyDate) (k : ℚ) (w : RawWeather)
    (desc : String) : ForecastDay :=
  let tf := pyRound1 ((k - 27315 / 100) * 9 / 5 + 32)
  ⟨d, tf, desc, w.icon, get_activity_tips tf desc uh uc⟩

/-- The `for entry in data.get("list", [])` loop of `get_forecast`. `acc` is
the insertion-ordered `forecasts` dict as an association list; `Except.error`
models an uncaught `KeyError`/`IndexError`/`ValueError` escaping the loop.
The duplicate test `dt_date in forecasts` is membership in the keys of `acc`;
the cap test `len(forecasts) >= max_days` runs after each insertion. -/
def processLoop (today : PyDate) (uh uc : Option ℚ) (max_days : Nat) :
    List RawEntry → List (PyDate × ForecastDay) → Except Unit (List (PyDate × ForecastDay))
  | [], acc => .ok acc
  | e :: rest, acc =>
    match e.dt_txt with
    | none => .error ()
    | some txt =>
      match parseDtTxt txt with
      | none => .error ()
      | some d =>
        if d = today ∨ d ∈ acc.map Prod.fst then
          processLoop today uh uc max_days rest acc
        else
          match e.main_temp with
          | none => .error ()
          | some k =>
            match e.weather with
            | [] => .error ()
            | w :: _ =>
              match w.description with
              | none => .error ()
              | some desc =>
                let acc2 := acc ++ [(d, buildDayFD uh uc d k w desc)]
                if max_days ≤ acc2.length then .ok acc2
                else processLoop today uh uc max_days rest acc2

/-- `get_forecast` from src/main.py. The `try` block converts the three fetch
failure cases to `None`; on a parsed body the entry loop runs outside any
handler, so a loop error propagates as an exception (`exn`). -/
def get_forecast (today : PyDate) (resp : FetchOutcome) (uh uc : Option ℚ)
    (max_days : Nat) : ForecastResult :=
  match resp with
  | .transportError => .unavailable
  | .httpError => .unavailable
  | .badJson => .unavailable
  | .ok data =>
    match processLoop today uh uc max_days (data.lst.getD []) [] with
    | .error _ => .exn
    | .ok acc => .ok (acc.map Prod.snd)

/-- `entry["dt_txt"]` parsed to a calendar date, when both steps succeed. -/
def entryDate (e : RawEntry) : Option PyDate := e.dt_txt.bind parseDtTxt

/-- A payload entry every field access of the loop body succeeds on. -/
def wellFormedEntry (e : RawEntry) : Bool :=
  (match e.dt_txt with
    | some t => (parseDtTxt t).isSome
    | none => false)
  && e.main_temp.isSome
  && (match e.weather with
    | w :: _ => w.description.isSome
    | [] => false)

/-- The distinct dates other than `today`, in first-arrival order, among the
entries' parsed dates, excluding those already in `seen`: the dates the loop
of `get_forecast` captures when no cap intervenes. -/
def newDates (today : PyDate) : List PyDate → List RawEntry → List PyDate
  | _, [] => []
  | seen, e :: rest =>
    match entryDate e with
    | none => newDates today seen rest
    | some d =>
      if d = today ∨ d ∈ seen then newDates today seen rest
      else d :: newDates today (seen ++ [d]) rest

/-- The distinct future calendar dates (strictly after `today`) among the
payload entries' parsed dates, in first-arrival order. -/
def futureNewDates (today : PyDate) (entries : List RawEntry) : List PyDate :=
  (newDates today [] entries).filter fun d => PyDate.lt today d

/-- Whether the selection of `get_forecast` keeps one interval entry: it is
kept exactly when its timestamp parses to a date that is neither `today` nor
already captured (`seen`) and its remaining fields are present, and it then
contributes the forecast day built from it. -/
def keepEntry (today : PyDate) (uh uc : Option ℚ) (seen : List PyDate)
    (e : RawEntry) : Option (PyDate × ForecastDay) :=
  match e.dt_txt with
  | none => none
  | some txt =>
    match parseDtTxt txt with
    | none => none
    | some d =>
      if d = today ∨ d ∈ seen then none
      else
        match e.main_temp with
        | none => none
        | some k =>
          match e.weather with
          | [] => none
          | w :: _ =>
            match w.description with
            | none => none
            | some desc => some (d, buildDayFD uh uc d k w desc)

/-- The uncapped selection of `get_forecast`: the first interval entry of each
distinct date other than `today` (dates in `seen` excluded), in arrival
order, paired with the forecast day built from that first entry. -/
def dedupStream (today : PyDate) (uh uc : Option ℚ) :
    List PyDate → List RawEntry → List (PyDate × ForecastDay)
  | _, [] => []
  | seen, e :: rest =>
    match keepEntry today uh uc seen e with
    | none => dedupStream today uh uc seen rest
    | some p => p :: dedupStream today uh uc (seen ++ [p.1]) rest

/-- The Flask session, restricted to the keys this application writes:
`lat`, `lon`, `city`, `country`, `state` (written by `validate`) and
`user_hot`, `user_cold` (written by the `home` handler). -/
structure SessionState where
  lat : Option ℚ
  lon : Option ℚ
  city : Option String
  country : Option String
  state : Option String
  user_hot : Option ℤ
  user_cold : Option ℤ
deriving DecidableEq, Repr

/-- The observable outcome of Python's `float(v)` on a geocode field value:
either the conversion succeeds with a rational, or it raises `ValueError`
(a non-numeric string). -/
inductive FloatConv
  | ok (q : ℚ)
  | fail
deriving DecidableEq, Repr

/-- The `"address"` object of a geocode candidate; each field may be absent. -/
structure GeoAddress where
  country_code : Option String
  country : Option String
  city : Option String
  town : Option String
deriving DecidableEq, Repr

/-- One geocode candidate: its optional address object and its `"lat"` /
`"lon"` fields (`none` models the key being absent, raising `KeyError`). -/
structure GeoCandidate where
  address : Option GeoAddress
  lat : Option FloatConv
  lon : Option FloatConv
deriving DecidableEq, Repr

/-- Outcome of the geocoding call, as the `try`/`except` distinguishes it:
any raised exception (transport, status, JSON) is one failure case; otherwise
the parsed candidate list. -/
inductive GeoOutcome
  | failure
  | ok (geo_data : List GeoCandidate)
deriving DecidableEq, Repr

/-- The form field an error message is attached to. -/
inductive FormField
  | state
  | user_hot
  | city
deriving DecidableEq, Repr

/-- What `validate` produces: `False` with one field-scoped message and the
session as it stands, or `True` with the updated session. -/
inductive ValidateOutcome
  | failure (f : FormField) (msg : String) (s : SessionState)
  | success (s : SessionState)
deriving DecidableEq, Repr

/-- `self.state.data.strip() if self.state.data else ""`. -/
def stateNorm (s : String) : String := if s = "" then "" else pyStrip s

/-- The session-storage step of `validate` (the final `try` block): the keys
are written one at a time, so a `KeyError`/`ValueError` while reading or
converting a coordinate aborts the block with the keys written so far kept. -/
def storeStep (s : SessionState) (g : GeoCandidate)
    (city country state : String) : ValidateOutcome :=
  match g.lat with
  | none => .failure .city "Error storing location coordinates." s
  | some .fail => .failure .city "Error storing location coordinates." s
  | some (.ok la) =>
    let s1 := { s with lat := some la }
    match g.lon with
    | none => .failure .city "Error storing location coordinates." s1
    | some .fail => .failure .city "Error storing location coordinates." s1
    | some (.ok lo) =>
      .success { s1 with
        lon := some lo, city := some city, country := some country, state := some state }

/-- `WeatherQuizForm.validate` from src/main.py, after `super().validate()`
has succeeded. The country-to-ISO map and the state-to-cities map are
parameters (they are loaded from `places.py`); the geocoding collaborator is
given by its outcome. Each early `return False` is a `failure` value carrying
the field the message was appended to and the session as it stands. -/
def validate (country_to_iso : String → Option String)
    (us_cities : String → List String)
    (country0 state0 city0 : String) (user_hot user_cold : ℤ)
    (geo : GeoOutcome) (s : SessionState) : ValidateOutcome :=
  let city := pyStrip city0
  let country := pyStrip country0
  let state := stateNorm state0
  if country = "United States of America" ∧ state = "" then
    .failure .state "Please select a U.S. state." s
  else if country ≠ "United States of America" ∧ state ≠ "" then
    .failure .state "State should only be selected for the United States." s
  else if user_hot ≤ user_cold then
    .failure .user_hot "Hot temperature must be greater than Cold temperature." s
  else if country = "United States of America" ∧ city ∉ us_cities state then
    .failure .city
      (city ++ " is not a valid city in " ++ state ++ ". If it is, enter the nearest major city.")
      s
  else
    match geo with
    | .failure => .failure .city "Error validating location. Please try again." s
    | .ok [] => .failure .city (city ++ " not found in " ++ country ++ ".") s
    | .ok (g :: _) =>
      let address := g.address.getD ⟨none, none, none, none⟩
      let geo_country_code := pyLower (address.country_code.getD "")
      let expected_code := country_to_iso (pyStrip country)
      if country ≠ "United States of America" then
        match expected_code with
        | none => .failure .city "Country validation configuration error." s
        | some code =>
          if geo_country_code ≠ code then
            .failure .city (city ++ " is not a city in " ++ country ++ ". ") s
          else storeStep s g city country state
      else storeStep s g city country state

/-- The view model the `results` handler builds on success. -/
structure WeatherViewModel where
  state : Option String
  city : Option String
  country : Option String
  forecast : List ForecastDay
deriving DecidableEq, Repr

/-- What the `results` handler does: render the results template with a view
model or an error string, or let an exception escape (`exn`). -/
inductive ResultsOutcome
  | render (weather : Option WeatherViewModel) (error : Option String)
  | exn
deriving DecidableEq, Repr

/-- The `results` route from src/main.py: missing coordinates give the
"not validated" error; a `None` forecast gives the "could not fetch" error;
otherwise the view model is rendered. `max_days` stays at its default 5. -/
def results (s : SessionState) (resp : FetchOutcome) (today : PyDate) : ResultsOutcome :=
  match s.lat, s.lon with
  | some _, some _ =>
    match get_forecast today resp (s.user_hot.map fun z => (z : ℚ))
        (s.user_cold.map fun z => (z : ℚ)) 5 with
    | .unavailable => .render none (some "Could not fetch weather data. Try again later.")
    | .exn => .exn
    | .ok fc => .render (some ⟨s.state, s.city, s.country, fc⟩) none
  | _, _ => .render none (some "Location could not be validated. Please try again.")

/-- A small country-to-ISO map for concrete instantiations. -/
def isoFixture : String → Option String := fun c => if c = "France" then some "fr" else none

/-- A small state-to-cities map for concrete instantiations. -/
def usCitiesFixture : String → List String := fun st => if st = "Texas" then ["Dallas"] else []

/-- A session with no key set. -/
def emptySession : SessionState := ⟨none, none, none, none, none, none, none⟩

/-- A geocode candidate resolving inside France with both coordinates numeric. -/
def geoFixtureFR : GeoCandidate :=
  ⟨some ⟨some "fr", some "France", none, none⟩, some (.ok 3), some (.ok 2)⟩

/-- A geocode candidate resolving inside Germany. -/
def geoFixtureDE : GeoCandidate :=
  ⟨some ⟨some "de", some "Germany", none, none⟩, some (.ok 3), some (.ok 2)⟩

/-- A geocode candidate with a numeric latitude but no longitude field. -/
def geoFixtureNoLon : GeoCandidate :=
  ⟨some ⟨some "fr", some "France", none, none⟩, some (.ok 3), none⟩

/-- A well-formed interval entry for 2026-10-13 at 300 K, clear sky. -/
def entryClear : RawEntry :=
  ⟨some "2026-10-13 12:00:00", some 300, [⟨some "clear sky", some "01d"⟩]⟩

/-- An interval entry with none of its fields present. -/
def entryBroken : RawEntry := ⟨none, none, []⟩

/-- The concrete current date used by concrete instantiations. -/
def todayFixture : PyDate := ⟨2026, 10, 12⟩

/-- A fully populated session for concrete instantiations. -/
def sessionFixture : SessionState :=
  ⟨some 3, some 2, some "Paris", some "France", some "", some 85, some 40⟩

/-- The resolved country code of a geocode candidate as `validate` reads it:
the lowercased `country_code` of its address, defaulting to the empty string. -/
def geoCodeOf (g : GeoCandidate) : String :=
  pyLower ((g.address.getD ⟨none, none, none, none⟩).country_code.getD "")

theorem stateNorm_eq (s : String) : stateNorm s = pyStrip s := by
  unfold stateNorm
  split
  · rename_i h; rw [h]; rfl
  · rfl

theorem tips_eq_bucket_append (t : ℚ) (d : String) (uh uc : Option ℚ) :
    get_activity_tips t d uh uc = bucketTips t uh uc ++ conditionTips d := by
  by_cases h1 : strContains (pyLower d) "rain" = true <;>
  by_cases h2 : strContains (pyLower d) "snow" = true <;>
  by_cases h3 : strContains (pyLower d) "wind" = true <;>
  by_cases h4 : (strContains (pyLower d) "storm" || strContains (pyLower d) "thunder") = true <;>
  by_cases h5 : coldTriggered t uc = true <;>
  by_cases h6 : hotTriggered t uh = true <;>
  simp [get_activity_tips, bucketTips, conditionTips, h1, h2, h3, h4, h5, h6]

theorem hot_tips_not_in_conditionTips (d : String) :
    "Stay hydrated" ∉ conditionTips d ∧ "Avoid peak sun hours" ∉ conditionTips d := by
  by_cases h1 : strContains (pyLower d) "rain" = true <;>
  by_cases h2 : strContains (pyLower d) "snow" = true <;>
  by_cases h3 : strContains (pyLower d) "wind" = true <;>
  by_cases h4 : (strContains (pyLower d) "storm" || strContains (pyLower d) "thunder") = true <;>
  simp [conditionTips, h1, h2, h3, h4]

/-- C6: `get_activity_tips` returns exactly one bucket's tips followed by the
condition tips: the cold bucket when a cold threshold is configured and
`temp_f` is at most it (and then no hot-bucket tip appears, even when the hot
condition also holds); otherwise the hot bucket when a hot threshold is
configured and `temp_f` is at least it; otherwise the single comfortable tip.
`conditionTips` appends one tip per keyword (rain, snow, wind,
storm-or-thunder) of the lowercased description, in that fixed order, and is
empty when no keyword occurs. -/
theorem get_activity_tips_structure (t : ℚ) (d : String) (uh uc : Option ℚ) :
    get_activity_tips t d uh uc = bucketTips t uh uc ++ conditionTips d
    ∧ (coldTriggered t uc = true →
        get_activity_tips t d uh uc
            = ["Bundle up/Wear warm clothes", "Limit time outdoors"] ++ conditionTips d
          ∧ "Stay hydrated" ∉ get_activity_tips t d uh uc
          ∧ "Avoid peak sun hours" ∉ get_activity_tips t d uh uc)
    ∧ (coldTriggered t uc = false → hotTriggered t uh = true →
        get_activity_tips t d uh uc = ["Stay hydrated", "Avoid peak sun hours"] ++ conditionTips d)
    ∧ (coldTriggered t uc = false → hotTriggered t uh = false →
        get_activity_tips t d uh uc = ["Comfortable for outdoor activities"] ++ conditionTips d) := by
  refine ⟨tips_eq_bucket_append t d uh uc, fun hc => ⟨?_, ?_, ?_⟩, fun hc hh => ?_, fun hc hh => ?_⟩
  · rw [tips_eq_bucket_append]; simp [bucketTips, hc]
  · rw [tips_eq_bucket_append]
    simp only [bucketTips, hc, if_true, List.mem_append]
    rintro (h | h)
    · simp at h
    · exact (hot_tips_not_in_conditionTips d).1 h
  · rw [tips_eq_bucket_append]
    simp only [bucketTips, hc, if_true, List.mem_append]
    rintro (h | h)
    · simp at h
    · exact (hot_tips_not_in_conditionTips d).2 h
  · rw [tips_eq_bucket_append]; simp [bucketTips, hc, hh]
  · rw [tips_eq_bucket_append]; simp [bucketTips, hc, hh]

/-- Witness for C6 at a concrete input: temperature 30 with cold threshold 40
triggers the cold bucket even though the description holds rain and thunder. -/
theorem get_activity_tips_structure_witness :
    get_activity_tips 30 "Rain and Thunder" (some 85) (some 40)
      = ["Bundle up/Wear warm clothes", "Limit time outdoors"] ++ conditionTips "Rain and Thunder" :=
  ((get_activity_tips_structure 30 "Rain and Thunder" (some 85) (some 40)).2.1 (by decide)).1

/-- C8: after the framework field checks, `validate` fails on the state field
when the country is the U.S. and the stripped state is empty, and when the
country is anything else and the stripped state is non-empty. -/
theorem validate_state_rule (cti : String → Option String) (usc : String → List String)
    (country0 state0 city0 : String) (uh uc : ℤ) (geo : GeoOutcome) (s : SessionState) :
    (pyStrip country0 = "United States of America" → pyStrip state0 = "" →
      validate cti usc country0 state0 city0 uh uc geo s
        = .failure .state "Please select a U.S. state." s)
    ∧ (pyStrip country0 ≠ "United States of America" → pyStrip state0 ≠ "" →
      validate cti usc country0 state0 city0 uh uc geo s
        = .failure .state "State should only be selected for the United States." s) := by
  constructor
  · intro h1 h2; simp [validate, stateNorm_eq, h1, h2]
  · intro h1 h2; simp [validate, stateNorm_eq, h1, h2]

/-- Witness for C8 at a concrete input: a non-U.S. country with a state. -/
theorem validate_state_rule_witness :
    validate isoFixture usCitiesFixture "France" "Texas" "Paris" 85 40 .failure emptySession
      = .failure .state "State should only be selected for the United States." emptySession :=
  (validate_state_rule isoFixture usCitiesFixture "France" "Texas" "Paris" 85 40
      .failure emptySession).2 (by decide) (by decide)

/-- C9: after the framework checks and with the state-applicability rule
satisfied, `hot ≤ cold` makes `validate` fail on the hot-temperature field.
The outcome does not depend on the maps, the geocode outcome or the session
content beyond returning it unchanged, so no later validation step (city
membership, geocoding, storage) is evaluated. -/
theorem validate_threshold_rule (cti : String → Option String) (usc : String → List String)
    (country0 state0 city0 : String) (uh uc : ℤ) (geo : GeoOutcome) (s : SessionState)
    (hstate : (pyStrip country0 = "United States of America" → pyStrip state0 ≠ "")
      ∧ (pyStrip country0 ≠ "United States of America" → pyStrip state0 = ""))
    (hle : uh ≤ uc) :
    validate cti usc country0 state0 city0 uh uc geo s
      = .failure .user_hot "Hot temperature must be greater than Cold temperature." s := by
  by_cases hc : pyStrip country0 = "United States of America"
  · simp [validate, stateNorm_eq, hc, hstate.1 hc, hle]
  · simp [validate, stateNorm_eq, hc, hstate.2 hc, hle]

/-- Witness for C9 at a concrete input: hot 40, cold 85. -/
theorem validate_threshold_rule_witness :
    validate isoFixture usCitiesFixture "France" "" "Paris" 40 85 .failure emptySession
      = .failure .user_hot "Hot temperature must be greater than Cold temperature." emptySession :=
  validate_threshold_rule isoFixture usCitiesFixture "France" "" "Paris" 40 85
    .failure emptySession (by decide) (by decide)

/-- C1 (amended): `get_forecast` returns the unavailable sentinel (`None`)
exactly for the three fetch failures the `try` block catches: a transport
error, a non-success status, or a body that fails JSON parsing. A fetched
JSON body never yields the sentinel: an entry of unexpected shape reached by
the loop raises an uncaught exception instead, so no partial result list is
returned in any failure case. -/
theorem get_forecast_failure_semantics (today : PyDate) (resp : FetchOutcome)
    (uh uc : Option ℚ) (m : Nat) :
    (resp = .transportError ∨ resp = .httpError ∨ resp = .badJson →
      get_forecast today resp uh uc m = .unavailable)
    ∧ (∀ data, resp = .ok data → get_forecast today resp uh uc m ≠ .unavailable) := by
  constructor
  · rintro (rfl | rfl | rfl) <;> rfl
  · rintro data rfl
    simp only [get_forecast]
    cases processLoop today uh uc m (data.lst.getD []) [] <;> simp

/-- Witness for C1 at concrete inputs: a transport error yields the sentinel,
a parsed body (here with no `"list"` key) does not. -/
theorem get_forecast_failure_semantics_witness :
    get_forecast todayFixture .transportError none none 5 = .unavailable
    ∧ get_forecast todayFixture (.ok ⟨none⟩) none none 5 ≠ .unavailable :=
  ⟨(get_forecast_failure_semantics todayFixture .transportError none none 5).1 (Or.inl rfl),
    (get_forecast_failure_semantics todayFixture (.ok ⟨none⟩) none none 5).2 ⟨none⟩ rfl⟩

/-- Counterexample to C1 as stated: a successful response whose single entry
is missing its timestamp, temperature and weather fields makes `get_forecast`
raise (the loop body runs outside the `try` block), which is not the
unavailable sentinel `None` the claim promises. -/
theorem get_forecast_malformed_payload_cex :
    get_forecast todayFixture (.ok ⟨some [entryBroken]⟩) none none 5 = .exn
    ∧ ForecastResult.exn ≠ ForecastResult.unavailable :=
  ⟨rfl, by decide⟩

/-- C2 (amended): in the session-storage step, the keys are written one at a
time and writing stops at the first absent or non-numeric coordinate, always
failing with the storage-error message on the city field. When the latitude
itself is absent or non-numeric nothing is persisted, but when the latitude
converts and the longitude is absent or non-numeric the `lat` key alone has
already been persisted: the session is not left completely unchanged. -/
theorem storeStep_partial_persistence (s : SessionState) (g : GeoCandidate)
    (city country state : String) :
    (g.lat = none ∨ g.lat = some .fail →
      storeStep s g city country state
        = .failure .city "Error storing location coordinates." s)
    ∧ (∀ la, g.lat = some (.ok la) → g.lon = none ∨ g.lon = some .fail →
      storeStep s g city country state
        = .failure .city "Error storing location coordinates." { s with lat := some la }) := by
  constructor
  · rintro (h | h) <;> simp [storeStep, h]
  · rintro la h (h2 | h2) <;> simp [storeStep, h, h2]

/-- Witness for C2's amended statement at a concrete input: a candidate with
a numeric latitude and no longitude field persists `lat` and then fails. -/
theorem storeStep_partial_persistence_witness :
    storeStep emptySession geoFixtureNoLon "Paris" "France" ""
      = .failure .city "Error storing location coordinates."
          { emptySession with lat := some 3 } :=
  (storeStep_partial_persistence emptySession geoFixtureNoLon "Paris" "France" "").2
    3 rfl (Or.inl rfl)

/-- Counterexample to C2 as stated: a full `validate` run (France/Paris, all
earlier steps passing) whose first geocode candidate has a numeric latitude
but no longitude field fails with the storage-error message, yet leaves the
session changed: the `lat` key was persisted before the failure. -/
theorem validate_storage_partial_session_cex :
    validate isoFixture usCitiesFixture "France" "" "Paris" 85 40
        (.ok [geoFixtureNoLon]) emptySession
      = .failure .city "Error storing location coordinates."
          { emptySession with lat := some 3 }
    ∧ ({ emptySession with lat := some 3 } : SessionState) ≠ emptySession :=
  ⟨rfl, by decide⟩

/-- C10: a successful forecast response whose entry list is absent or empty
gives the empty list, which is distinct from the unavailable sentinel; the
`results` handler therefore renders a view model with an empty forecast
rather than the could-not-fetch error. -/
theorem results_empty_forecast_success (s : SessionState) (today : PyDate) (la lo : ℚ)
    (hla : s.lat = some la) (hlo : s.lon = some lo)
    (data : RawData) (hdata : data.lst = none ∨ data.lst = some []) :
    get_forecast today (.ok data) (s.user_hot.map fun z => (z : ℚ))
        (s.user_cold.map fun z => (z : ℚ)) 5 = .ok []
    ∧ ForecastResult.ok [] ≠ ForecastResult.unavailable
    ∧ results s (.ok data) today = .render (some ⟨s.state, s.city, s.country, []⟩) none := by
  have hgf : get_forecast today (.ok data) (s.user_hot.map fun z => (z : ℚ))
      (s.user_cold.map fun z => (z : ℚ)) 5 = .ok [] := by
    rcases hdata with h | h <;> simp [get_forecast, h, processLoop]
  refine ⟨hgf, by decide, ?_⟩
  simp only [results, hla, hlo]
  rw [hgf]

/-- Witness for C10 at a concrete session and an empty-list payload. -/
theorem results_empty_forecast_success_witness :
    get_forecast todayFixture (.ok ⟨some []⟩) (sessionFixture.user_hot.map fun z => (z : ℚ))
        (sessionFixture.user_cold.map fun z => (z : ℚ)) 5 = .ok []
    ∧ ForecastResult.ok [] ≠ ForecastResult.unavailable
    ∧ results sessionFixture (.ok ⟨some []⟩) todayFixture
        = .render (some ⟨sessionFixture.state, sessionFixture.city, sessionFixture.country, []⟩) none :=
  results_empty_forecast_success sessionFixture todayFixture 3 2 rfl rfl
    ⟨some []⟩ (Or.inr rfl)

theorem wellFormed_fields (e : RawEntry) (h : wellFormedEntry e = true) :
    ∃ txt d, e.dt_txt = some txt ∧ parseDtTxt txt = some d
      ∧ ∃ k, e.main_temp = some k
      ∧ ∃ w ws, e.weather = w :: ws ∧ ∃ desc, w.description = some desc := by
  unfold wellFormedEntry at h
  simp only [Bool.and_eq_true] at h
  obtain ⟨⟨h1, h2⟩, h3⟩ := h
  cases hdt : e.dt_txt with
  | none => rw [hdt] at h1; simp at h1
  | some txt =>
    rw [hdt] at h1
    obtain ⟨d, hd⟩ := Option.isSome_iff_exists.mp h1
    obtain ⟨k, hk⟩ := Option.isSome_iff_exists.mp h2
    cases hw : e.weather with
    | nil => rw [hw] at h3; simp at h3
    | cons w ws =>
      rw [hw] at h3
      obtain ⟨desc, hdesc⟩ := Option.isSome_iff_exists.mp h3
      exact ⟨txt, d, rfl, hd, k, hk, w, ws, rfl, desc, hdesc⟩

theorem keepEntry_spec (today : PyDate) (uh uc : Option ℚ) (seen : List PyDate)
    (e : RawEntry) (p : PyDate × ForecastDay)
    (h : keepEntry today uh uc seen e = some p) :
    p.2.date = p.1 ∧ p.1 ≠ today ∧ p.1 ∉ seen ∧ entryDate e = some p.1
      ∧ ∃ k w ws desc, e.main_temp = some k ∧ e.weather = w :: ws
          ∧ w.description = some desc ∧ p.2 = buildDayFD uh uc p.1 k w desc := by
  unfold keepEntry at h
  split at h
  · exact absurd h (by simp)
  · rename_i txt hdt
    split at h
    · exact absurd h (by simp)
    · rename_i d hparse
      split at h
      · exact absurd h (by simp)
      · rename_i hskip
        split at h
        · exact absurd h (by simp)
        · rename_i k htemp
          split at h
          · exact absurd h (by simp)
          · rename_i w ws hw
            split at h
            · exact absurd h (by simp)
            · rename_i desc hdesc
              obtain rfl := (Option.some_inj.mp h).symm
              push_neg at hskip
              exact ⟨rfl, hskip.1, hskip.2, by simp [entryDate, hdt, hparse],
                k, w, ws, desc, htemp, hw, hdesc, rfl⟩

theorem dedupStream_dates (today : PyDate) (uh uc : Option ℚ) :
    ∀ (entries : List RawEntry) (seen : List PyDate),
      (∀ p ∈ dedupStream today uh uc seen entries,
          p.2.date = p.1 ∧ p.1 ≠ today ∧ p.1 ∉ seen)
      ∧ ((dedupStream today uh uc seen entries).map Prod.fst).Nodup := by
  intro entries
  induction entries with
  | nil => intro seen; simp [dedupStream]
  | cons e rest ih =>
    intro seen
    simp only [dedupStream]
    cases hk : keepEntry today uh uc seen e with
    | none => exact ih seen
    | some p =>
      obtain ⟨hdate, hne, hnotin, -, -⟩ := keepEntry_spec today uh uc seen e p hk
      constructor
      · rintro q hq
        rcases List.mem_cons.mp hq with rfl | hq2
        · exact ⟨hdate, hne, hnotin⟩
        · obtain ⟨g1, g2, g3⟩ := (ih (seen ++ [p.1])).1 q hq2
          exact ⟨g1, g2, fun hmem => g3 (by simp [hmem])⟩
      · simp only [List.map_cons, List.nodup_cons]
        constructor
        · intro hmem
          obtain ⟨q, hq, hfst⟩ := List.mem_map.mp hmem
          exact ((ih (seen ++ [p.1])).1 q hq).2.2 (by simp [hfst])
        · exact (ih (seen ++ [p.1])).2

theorem dedupStream_mem_source (today : PyDate) (uh uc : Option ℚ) :
    ∀ (entries : List RawEntry) (seen : List PyDate) (p : PyDate × ForecastDay),
      p ∈ dedupStream today uh uc seen entries →
      ∃ e ∈ entries, ∃ k w ws desc, e.main_temp = some k ∧ e.weather = w :: ws
        ∧ w.description = some desc ∧ p.2 = buildDayFD uh uc p.1 k w desc := by
  intro entries
  induction entries with
  | nil => intro seen p hp; simp [dedupStream] at hp
  | cons e rest ih =>
    intro seen p hp
    simp only [dedupStream] at hp
    cases hk : keepEntry today uh uc seen e with
    | none =>
      rw [hk] at hp
      obtain ⟨e2, he2, rest2⟩ := ih seen p hp
      exact ⟨e2, by simp [he2], rest2⟩
    | some q =>
      rw [hk] at hp
      rcases List.mem_cons.mp hp with rfl | hp2
      · obtain ⟨-, -, -, -, k, w, ws, desc, h1, h2, h3, h4⟩ :=
          keepEntry_spec today uh uc seen e p hk
        exact ⟨e, by simp, k, w, ws, desc, h1, h2, h3, h4⟩
      · obtain ⟨e2, he2, rest2⟩ := ih (seen ++ [q.1]) p hp2
        exact ⟨e2, by simp [he2], rest2⟩

theorem processLoop_ok_take (today : PyDate) (uh uc : Option ℚ) (m : Nat) :
    ∀ (entries : List RawEntry) (acc : List (PyDate × ForecastDay)),
      (∀ e ∈ entries, wellFormedEntry e = true) →
      ∃ l k, processLoop today uh uc m entries acc = .ok l
        ∧ l = acc ++ (dedupStream today uh uc (acc.map Prod.fst) entries).take k := by
  intro entries
  induction entries with
  | nil => intro acc _; exact ⟨acc, 0, rfl, by simp [dedupStream]⟩
  | cons e rest ih =>
    intro acc hwf
    obtain ⟨txt, d, hdt, hparse, k0, htemp, w, ws, hw, desc, hdesc⟩ :=
      wellFormed_fields e (hwf e (by simp))
    have hrest : ∀ x ∈ rest, wellFormedEntry x = true := fun x hx => hwf x (by simp [hx])
    by_cases hskip : d = today ∨ d ∈ acc.map Prod.fst
    · have hke : keepEntry today uh uc (acc.map Prod.fst) e = none := by
        simp only [keepEntry, hdt, hparse, if_pos hskip]
      obtain ⟨l, k, hpl, hl⟩ := ih acc hrest
      refine ⟨l, k, ?_, ?_⟩
      · simp only [processLoop, hdt, hparse, if_pos hskip]
        exact hpl
      · rw [hl]; simp only [dedupStream, hke]
    · have hke : keepEntry today uh uc (acc.map Prod.fst) e
          = some (d, buildDayFD uh uc d k0 w desc) := by
        simp only [keepEntry, hdt, hparse, if_neg hskip, htemp, hw, hdesc]
      by_cases hcap : m ≤ (acc ++ [(d, buildDayFD uh uc d k0 w desc)]).length
      · refine ⟨acc ++ [(d, buildDayFD uh uc d k0 w desc)], 1, ?_, ?_⟩
        · simp only [processLoop, hdt, hparse, if_neg hskip, htemp, hw, hdesc, if_pos hcap]
        · simp only [dedupStream, hke, List.take_succ_cons, List.take_zero]
      · obtain ⟨l, k, hpl, hl⟩ := ih (acc ++ [(d, buildDayFD uh uc d k0 w desc)]) hrest
        refine ⟨l, k + 1, ?_, ?_⟩
        · simp only [processLoop, hdt, hparse, if_neg hskip, htemp, hw, hdesc, if_neg hcap]
          exact hpl
        · rw [hl]
          simp only [dedupStream, hke, List.take_succ_cons, List.map_append,
            List.map_cons, List.map_nil, List.append_assoc, List.cons_append,
            List.nil_append]

theorem processLoop_length (today : PyDate) (uh uc : Option ℚ) (m : Nat) :
    ∀ (entries : List RawEntry) (acc : List (PyDate × ForecastDay)),
      (∀ e ∈ entries, wellFormedEntry e = true) →
      acc.length < m →
      ∃ l, processLoop today uh uc m entries acc = .ok l
        ∧ l.length = min m (acc.length + (newDates today (acc.map Prod.fst) entries).length) := by
  intro entries
  induction entries with
  | nil =>
    intro acc _ hlt
    exact ⟨acc, rfl, by simp [newDates]; omega⟩
  | cons e rest ih =>
    intro acc hwf hlt
    obtain ⟨txt, d, hdt, hparse, k0, htemp, w, ws, hw, desc, hdesc⟩ :=
      wellFormed_fields e (hwf e (by simp))
    have hrest : ∀ x ∈ rest, wellFormedEntry x = true := fun x hx => hwf x (by simp [hx])
    have hed : entryDate e = some d := by simp [entryDate, hdt, hparse]
    by_cases hskip : d = today ∨ d ∈ acc.map Prod.fst
    · obtain ⟨l, hpl, hlen⟩ := ih acc hrest hlt
      refine ⟨l, ?_, ?_⟩
      · simp only [processLoop, hdt, hparse, if_pos hskip]
        exact hpl
      · rw [hlen]; simp only [newDates, hed, if_pos hskip]
    · by_cases hcap : m ≤ (acc ++ [(d, buildDayFD uh uc d k0 w desc)]).length
      · refine ⟨acc ++ [(d, buildDayFD uh uc d k0 w desc)], ?_, ?_⟩
        · simp only [processLoop, hdt, hparse, if_neg hskip, htemp, hw, hdesc, if_pos hcap]
        · simp only [newDates, hed, if_neg hskip, List.length_append, List.length_cons,
            List.length_nil] at hcap ⊢
          omega
      · obtain ⟨l, hpl, hlen⟩ := ih (acc ++ [(d, buildDayFD uh uc d k0 w desc)]) hrest
          (by simp only [List.length_append, List.length_cons, List.length_nil] at hcap ⊢; omega)
        refine ⟨l, ?_, ?_⟩
        · simp only [processLoop, hdt, hparse, if_neg hskip, htemp, hw, hdesc, if_neg hcap]
          exact hpl
        · rw [hlen]
          simp only [newDates, hed, if_neg hskip, List.map_append, List.map_cons,
            List.map_nil, List.length_append, List.length_cons, List.length_nil]
          omega

/-- C3 (amended, for a cap of at least one day): on a well-formed payload
`get_forecast` succeeds with a list of length at most `max_days`, and when
the payload holds at least `max_days` distinct future calendar dates the
length is exactly `max_days`. (For `max_days = 0` the code still returns one
day, because the cap is only checked after an insertion; see the
counterexample.) -/
theorem get_forecast_length_bounds (today : PyDate) (uh uc : Option ℚ) (m : Nat) (data : RawData)
    (hwf : ∀ e ∈ data.lst.getD [], wellFormedEntry e = true) (hm : 1 ≤ m) :
    ∃ l, get_forecast today (.ok data) uh uc m = .ok l
      ∧ l.length ≤ m
      ∧ (m ≤ (futureNewDates today (data.lst.getD [])).length → l.length = m) := by
  obtain ⟨l0, hpl, hlen⟩ :=
    processLoop_length today uh uc m (data.lst.getD []) [] hwf (by simpa using hm)
  simp only [List.map_nil, List.length_nil, Nat.zero_add] at hlen
  refine ⟨l0.map Prod.snd, by simp [get_forecast, hpl], ?_, ?_⟩
  · rw [List.length_map, hlen]; omega
  · intro hge
    have hfil : (futureNewDates today (data.lst.getD [])).length
        ≤ (newDates today [] (data.lst.getD [])).length := List.length_filter_le _ _
    rw [List.length_map, hlen]
    omega

/-- Counterexample to C3 as stated: with `max_days = 0` and one well-formed
future entry, `get_forecast` returns a list of length one, which exceeds the
configured maximum because the cap is checked only after an insertion. -/
theorem get_forecast_zero_cap_cex :
    (∀ e ∈ [entryClear], wellFormedEntry e = true)
    ∧ get_forecast todayFixture (.ok ⟨some [entryClear]⟩) none none 0
        = .ok [buildDayFD none none ⟨2026, 10, 13⟩ 300 ⟨some "clear sky", some "01d"⟩ "clear sky"]
    ∧ ¬ ([buildDayFD none none ⟨2026, 10, 13⟩ 300
          ⟨some "clear sky", some "01d"⟩ "clear sky"].length ≤ 0) :=
  ⟨by decide, rfl, by decide⟩

/-- Witness for C3's amended statement at a concrete payload. -/
theorem get_forecast_length_bounds_witness :
    ∃ l, get_forecast todayFixture (.ok ⟨some [entryClear]⟩) none none 5 = .ok l
      ∧ l.length ≤ 5
      ∧ (5 ≤ (futureNewDates todayFixture [entryClear]).length → l.length = 5) :=
  get_forecast_length_bounds todayFixture none none 5 ⟨some [entryClear]⟩ (by decide) (by omega)

/-- C4: on a well-formed payload the returned list is an initial segment of
the deduplicated selection stream: entries dated `today` are excluded, only
the first entry of each distinct date is kept (later entries for a seen date
are skipped), and the days appear in the arrival order of the distinct
dates; consequently no returned day is dated `today` and the returned dates
are pairwise distinct. -/
theorem get_forecast_dedup_order (today : PyDate) (uh uc : Option ℚ) (m : Nat) (data : RawData)
    (hwf : ∀ e ∈ data.lst.getD [], wellFormedEntry e = true) :
    ∃ l, get_forecast today (.ok data) uh uc m = .ok l
      ∧ (∃ k, l = ((dedupStream today uh uc [] (data.lst.getD [])).take k).map Prod.snd)
      ∧ (∀ day ∈ l, day.date ≠ today)
      ∧ (l.map ForecastDay.date).Nodup := by
  obtain ⟨l0, k, hpl, hl0⟩ := processLoop_ok_take today uh uc m (data.lst.getD []) [] hwf
  simp only [List.map_nil, List.nil_append] at hl0
  refine ⟨l0.map Prod.snd, by simp [get_forecast, hpl], ⟨k, by rw [hl0]⟩, ?_, ?_⟩
  · rintro day hday
    obtain ⟨p, hp, rfl⟩ := List.mem_map.mp hday
    have hps : p ∈ dedupStream today uh uc [] (data.lst.getD []) :=
      List.take_subset _ _ (hl0 ▸ hp)
    obtain ⟨h1, h2, -⟩ := (dedupStream_dates today uh uc (data.lst.getD []) []).1 p hps
    rw [h1]; exact h2
  · rw [List.map_map]
    have hcong : l0.map (ForecastDay.date ∘ Prod.snd) = l0.map Prod.fst := by
      apply List.map_congr_left
      intro p hp
      have hps : p ∈ dedupStream today uh uc [] (data.lst.getD []) :=
        List.take_subset _ _ (hl0 ▸ hp)
      exact ((dedupStream_dates today uh uc (data.lst.getD []) []).1 p hps).1
    rw [hcong, hl0, List.map_take]
    exact (List.take_sublist _ _).nodup (dedupStream_dates today uh uc (data.lst.getD []) []).2

/-- Witness for C4 at a concrete payload. -/
theorem get_forecast_dedup_order_witness :
    ∃ l, get_forecast todayFixture (.ok ⟨some [entryClear]⟩) none none 5 = .ok l
      ∧ (∃ k, l = ((dedupStream todayFixture none none [] [entryClear]).take k).map Prod.snd)
      ∧ (∀ day ∈ l, day.date ≠ todayFixture)
      ∧ (l.map ForecastDay.date).Nodup :=
  get_forecast_dedup_order todayFixture none none 5 ⟨some [entryClear]⟩ (by decide)

/-- C5: every day kept by `get_forecast` carries the Fahrenheit temperature
`(K - 273.15) * 9 / 5 + 32` rounded to one decimal, where `K` is the source
temperature of an entry of the payload it was built from. -/
theorem get_forecast_tempF_formula (today : PyDate) (uh uc : Option ℚ) (m : Nat) (data : RawData)
    (hwf : ∀ e ∈ data.lst.getD [], wellFormedEntry e = true)
    (l : List ForecastDay) (hl : get_forecast today (.ok data) uh uc m = .ok l) :
    ∀ day ∈ l, ∃ e ∈ data.lst.getD [], ∃ k, e.main_temp = some k
      ∧ day.temp_f = pyRound1 ((k - 27315 / 100) * 9 / 5 + 32) := by
  obtain ⟨l0, k, hpl, hl0⟩ := processLoop_ok_take today uh uc m (data.lst.getD []) [] hwf
  simp only [List.map_nil, List.nil_append] at hl0
  have hleq : l = l0.map Prod.snd := by
    simp only [get_forecast, hpl] at hl
    exact (ForecastResult.ok.inj hl).symm
  subst hleq
  rintro day hday
  obtain ⟨p, hp, rfl⟩ := List.mem_map.mp hday
  have hps : p ∈ dedupStream today uh uc [] (data.lst.getD []) :=
    List.take_subset _ _ (hl0 ▸ hp)
  obtain ⟨e, he, k2, w, ws, desc, h1, h2, h3, h4⟩ :=
    dedupStream_mem_source today uh uc (data.lst.getD []) [] p hps
  exact ⟨e, he, k2, h1, by rw [h4]; rfl⟩

/-- Witness for C5 at a concrete payload: the kept day for the 300 K entry. -/
theorem get_forecast_tempF_formula_witness :
    ∃ e ∈ [entryClear], ∃ k, e.main_temp = some k
      ∧ (buildDayFD none none ⟨2026, 10, 13⟩ 300 ⟨some "clear sky", some "01d"⟩ "clear sky").temp_f
          = pyRound1 ((k - 27315 / 100) * 9 / 5 + 32) :=
  get_forecast_tempF_formula todayFixture none none 5 ⟨some [entryClear]⟩ (by decide)
    [buildDayFD none none ⟨2026, 10, 13⟩ 300 ⟨some "clear sky", some "01d"⟩ "clear sky"] rfl
    (buildDayFD none none ⟨2026, 10, 13⟩ 300 ⟨some "clear sky", some "01d"⟩ "clear sky")
    (List.mem_singleton.mpr rfl)

theorem string_toList_append (a b : String) : (a ++ b).toList = a.toList ++ b.toList := by
  cases a; cases b; rfl

theorem strStarts_append_self : ∀ (n post : List Char), strStarts n (n ++ post) = true := by
  intro n post
  induction n with
  | nil => rfl
  | cons a t ih => simp [strStarts, ih]

theorem occursIn_here (n h : List Char) (hs : strStarts n h = true) : occursIn n h = true := by
  cases h with
  | nil => simpa [occursIn] using hs
  | cons c t => simp [occursIn, hs]

theorem occursIn_there (n : List Char) (c : Char) (t : List Char) (h : occursIn n t = true) :
    occursIn n (c :: t) = true := by
  simp [occursIn, h]

theorem occursIn_append_mid : ∀ (pre pat post : List Char),
    occursIn pat (pre ++ pat ++ post) = true := by
  intro pre pat post
  induction pre with
  | nil => exact occursIn_here _ _ (by simpa using strStarts_append_self pat post)
  | cons c t ih => exact occursIn_there _ _ _ ih

theorem strStarts_mono : ∀ (p q h : List Char), strStarts (p ++ q) h = true →
    strStarts p h = true := by
  intro p
  induction p with
  | nil => intro q h _; rfl
  | cons a t ih =>
    intro q h hs
    cases h with
    | nil => simp [strStarts] at hs
    | cons b t2 =>
      simp only [List.cons_append, strStarts, Bool.and_eq_true] at hs ⊢
      exact ⟨hs.1, ih q t2 hs.2⟩

theorem occursIn_mono : ∀ (h p q : List Char), occursIn (p ++ q) h = true →
    occursIn p h = true := by
  intro h
  induction h with
  | nil =>
    intro p q ho
    simp only [occursIn] at ho ⊢
    cases p with
    | nil => rfl
    | cons a t => simp [strStarts] at ho
  | cons c t ih =>
    intro p q ho
    simp only [occursIn, Bool.or_eq_true] at ho ⊢
    rcases ho with hs | ht
    · exact Or.inl (strStarts_mono p q _ hs)
    · exact Or.inr (ih p q ht)

theorem storage_msg_no_crosscheck_text (ct : String) :
    strContains "Error storing location coordinates." ("not a city in " ++ ct) = false := by
  by_contra hcon
  have htrue : strContains "Error storing location coordinates." ("not a city in " ++ ct)
      = true := by
    revert hcon
    cases strContains "Error storing location coordinates." ("not a city in " ++ ct) <;> simp
  unfold strContains at htrue
  rw [string_toList_append] at htrue
  have h2 := occursIn_mono _ _ _ htrue
  have h3 : occursIn "not a city in ".toList "Error storing location coordinates.".toList
      = false := by decide
  rw [h2] at h3
  cases h3

theorem storeStep_failure_msg (s : SessionState) (g : GeoCandidate) (city country state : String)
    (f : FormField) (msg : String) (s2 : SessionState)
    (h : storeStep s g city country state = .failure f msg s2) :
    msg = "Error storing location coordinates." := by
  unfold storeStep at h
  split at h
  · injection h with h1 h2 h3; exact h2.symm
  · injection h with h1 h2 h3; exact h2.symm
  · split at h
    · injection h with h1 h2 h3; exact h2.symm
    · injection h with h1 h2 h3; exact h2.symm
    · exact absurd h (by simp)

/-- C7: for a submission reaching the geocoding step (earlier rules passed)
whose non-U.S. country has an ISO code in the country map and whose geocode
result is non-empty, `validate` fails on the city field with a message
containing "not a city in country" exactly when the lowercased country code
of the first candidate differs from that ISO code. For the U.S. the
cross-check is never applied: `validate` goes straight to the storage step
whatever the resolved country code is. -/
theorem validate_country_crosscheck (cti : String → Option String) (usc : String → List String)
    (country0 state0 city0 : String) (uh uc : ℤ) (g : GeoCandidate) (rest : List GeoCandidate)
    (s : SessionState) :
    (∀ code, pyStrip country0 ≠ "United States of America" →
      pyStrip state0 = "" →
      uc < uh →
      cti (pyStrip (pyStrip country0)) = some code →
      ((∃ msg s2, validate cti usc country0 state0 city0 uh uc (.ok (g :: rest)) s
            = .failure .city msg s2
          ∧ strContains msg ("not a city in " ++ pyStrip country0) = true)
        ↔ geoCodeOf g ≠ code))
    ∧ (pyStrip country0 = "United States of America" →
      pyStrip state0 ≠ "" →
      uc < uh →
      pyStrip city0 ∈ usc (pyStrip state0) →
      validate cti usc country0 state0 city0 uh uc (.ok (g :: rest)) s
        = storeStep s g (pyStrip city0) (pyStrip country0) (pyStrip state0)) := by
  constructor
  · intro code hne hst hlt hiso
    by_cases hmm : geoCodeOf g = code
    · have hval : validate cti usc country0 state0 city0 uh uc (.ok (g :: rest)) s
          = storeStep s g (pyStrip city0) (pyStrip country0) (stateNorm state0) := by
        simp [validate, stateNorm_eq, hne, hst, not_le.mpr hlt, hiso, geoCodeOf] at hmm ⊢
        simp [hmm]
      apply iff_of_false
      · rintro ⟨msg, s2, hfail, hcont⟩
        rw [hval] at hfail
        have hmsg := storeStep_failure_msg _ _ _ _ _ _ _ _ hfail
        subst hmsg
        rw [storage_msg_no_crosscheck_text (pyStrip country0)] at hcont
        cases hcont
      · intro hcode; exact hcode hmm
    · have hval : validate cti usc country0 state0 city0 uh uc (.ok (g :: rest)) s
          = .failure .city
              (pyStrip city0 ++ " is not a city in " ++ pyStrip country0 ++ ". ") s := by
        simp [validate, stateNorm_eq, hne, hst, not_le.mpr hlt, hiso, geoCodeOf] at hmm ⊢
        simp [hmm]
      apply iff_of_true
      · refine ⟨_, _, hval, ?_⟩
        unfold strContains
        have hsplit : (pyStrip city0 ++ " is not a city in " ++ pyStrip country0 ++ ". ").toList
            = (pyStrip city0 ++ " is ").toList
              ++ ("not a city in " ++ pyStrip country0).toList ++ ". ".toList := by
          simp only [string_toList_append, List.append_assoc]
          have : " is not a city in ".toList = " is ".toList ++ "not a city in ".toList := by
            decide
          rw [this]
          simp [List.append_assoc]
        rw [hsplit]
        exact occursIn_append_mid _ _ _
      · exact hmm
  · intro hus hst hlt hcity
    simp [validate, stateNorm_eq, hus, hst, not_le.mpr hlt, hcity]

/-- Witness for C7 at a concrete input: Paris, France resolving to a German
country code fails the cross-check with the expected message. -/
theorem validate_country_crosscheck_witness :
    ∃ msg s2, validate isoFixture usCitiesFixture "France" "" "Paris" 85 40
          (.ok [geoFixtureDE]) emptySession
        = .failure .city msg s2
      ∧ strContains msg ("not a city in " ++ pyStrip "France") = true :=
  ((validate_country_crosscheck isoFixture usCitiesFixture "France" "" "Paris" 85 40
      geoFixtureDE [] emptySession).1 "fr" (by decide) (by decide) (by decide)
      (by decide)).mpr (by decide)
